import Mathlib

/-!
Verification of the workflow execution engine of the `sins6` repository
(`backend/src/services/ExecutionService.ts`, `backend/src/utils/validation.ts`).
All definitions below are shallow embeddings of the TypeScript source; the
theorems settle the specification claims against them.
-/

namespace Sins6

/-- JavaScript runtime values as the engine observes them.  The engine never
inspects the inside of an object/record payload (it only passes data through),
so objects are modelled by the single opaque constructor `vobj`. -/
inductive Value where
  | vundef
  | vnull
  | vbool (b : Bool)
  | vint (n : Int)
  | vstr (s : String)
  | vobj
deriving DecidableEq

/-- JavaScript truthiness test (`!x` in the source): `undefined`, `null`,
`false`, `0` and the empty string are falsy, objects are truthy. -/
def Value.falsy : Value → Bool
  | .vundef => true
  | .vnull => true
  | .vbool b => !b
  | .vint n => n == 0
  | .vstr s => s == ""
  | .vobj => false

/-- JavaScript string interpolation of a value (template literals in the
source error messages). -/
def Value.display : Value → String
  | .vundef => "undefined"
  | .vnull => "null"
  | .vbool b => if b then "true" else "false"
  | .vint n => toString n
  | .vstr s => s
  | .vobj => "[object Object]"

/-- The configuration fields of a node that `ExecutionService` destructures
(`node.config || {}`); a field absent from the config destructures to
`undefined`, which is the default here. -/
structure NodeConfig where
  condition : Value := .vundef
  actionType : Value := .vundef
  operation : Value := .vundef
  variableName : Value := .vundef
  value : Value := .vundef
  duration : Value := .vundef
deriving DecidableEq

/-- A flow node as `ExecutionService` reads it (backend `FlowNode` type). -/
structure FlowNode where
  id : String
  type : String
  name : String
  config : NodeConfig := {}
deriving DecidableEq

/-- A directed edge of the flow graph, with the field names used by
`getNextNode` and by the zod request schema (`sourceNodeId`/`targetNodeId`,
optional `sourceHandle`). -/
structure Connection where
  id : String
  sourceNodeId : String
  targetNodeId : String
  sourceHandle : Option String := none
deriving DecidableEq

/-- A flow-level variable declaration as `executeFlowAsync` iterates it
(`variable.name` / `variable.defaultValue`). -/
structure FlowVariable where
  name : String
  defaultValue : Value
deriving DecidableEq

/-- The flow definition as consumed by the engine. -/
structure Flow where
  id : String
  status : String
  nodes : List FlowNode
  connections : List Connection
  «variables» : List FlowVariable := []
deriving DecidableEq

/-- A JavaScript `Map` used for the run-local variables, modelled as an
insertion-ordered association list. -/
def mapSet : List (Value × Value) → Value → Value → List (Value × Value)
  | [], k, v => [(k, v)]
  | (k', v') :: rest, k, v =>
    if k' = k then (k', v) :: rest else (k', v') :: mapSet rest k v

/-- `Map.get`: `undefined` when the key is absent. -/
def mapGet : List (Value × Value) → Value → Value
  | [], _ => .vundef
  | (k', v') :: rest, k => if k' = k then v' else mapGet rest k

/-- The per-run mutable state (`ExecutionContext` in `backend/src/types`). -/
structure ExecutionContext where
  executionId : String
  flowId : String
  «variables» : List (Value × Value)
  inputData : Value
  outputData : Value
  currentNodeId : String
  executionPath : List String
deriving DecidableEq

/-- The result object `executeNode` returns for every invocation
(`NodeExecutionResult` in `backend/src/types`). -/
structure NodeExecutionResult where
  nodeId : String
  success : Bool
  status : String
  inputData : Value
  outputData : Value
  executionTime : Nat
  error : Option String
  logs : List String
  nextNodeIds : List String
deriving DecidableEq

/-- `executeConditionNode`: throws when the `condition` config field is falsy
(missing), otherwise returns the input data unchanged — the source comments
mark the rule evaluation as unimplemented ("暂时返回输入数据"). -/
def executeConditionNode (node : FlowNode) (inputData : Value) :
    Except String Value :=
  if (node.config.condition).falsy then
    .error "Condition node missing condition configuration"
  else
    .ok inputData

/-- `executeActionNode`: dispatches on `actionType`; both implemented actions
(`executeHttpRequest`, `executeDataTransform`) return the input unchanged. -/
def executeActionNode (node : FlowNode) (inputData : Value) :
    Except String Value :=
  match node.config.actionType with
  | .vstr "http_request" => .ok inputData
  | .vstr "data_transform" => .ok inputData
  | other => .error ("Unsupported action type: " ++ other.display)

/-- `executeDelayNode`: waits (real time is not modelled) and returns the
input unchanged. -/
def executeDelayNode (_node : FlowNode) (inputData : Value) :
    Except String Value :=
  .ok inputData

/-- `executeVariableNode`: only `set` and `get` are implemented; every other
operation value hits the `default` branch and throws. -/
def executeVariableNode (node : FlowNode) (inputData : Value)
    (vars : List (Value × Value)) : Except String (Value × List (Value × Value)) :=
  match node.config.operation with
  | .vstr "set" => .ok (inputData, mapSet vars node.config.variableName node.config.value)
  | .vstr "get" => .ok (mapGet vars node.config.variableName, vars)
  | other => .error ("Unsupported variable operation: " ++ other.display)

/-- The body of `executeNode`'s `try` block: the per-type switch.  A thrown
error is an `Except.error`; success carries the output data and the (possibly
mutated) context. -/
def executeNodeDispatch (node : FlowNode) (ctx : ExecutionContext)
    (inputData : Value) : Except String (Value × ExecutionContext) :=
  match node.type with
  | "start" => .ok (ctx.inputData, ctx)
  | "end" => .ok (inputData, { ctx with outputData := inputData })
  | "condition" => (executeConditionNode node inputData).map (fun v => (v, ctx))
  | "action" => (executeActionNode node inputData).map (fun v => (v, ctx))
  | "delay" => (executeDelayNode node inputData).map (fun v => (v, ctx))
  | "variable" =>
    (executeVariableNode node inputData ctx.«variables»).map
      (fun p => (p.1, { ctx with «variables» := p.2 }))
  | t => .error ("Unsupported node type: " ++ t)

/-- `executeNode`: wraps the dispatch in its `try`/`catch`.  It never throws:
a caught error becomes a result with `success = false`, `outputData = null`
and the error message.  `dt` is the measured wall time
(`Date.now() - startTime`) of the invocation. -/
def executeNode (node : FlowNode) (ctx : ExecutionContext) (inputData : Value)
    (dt : Nat) : NodeExecutionResult × ExecutionContext :=
  match executeNodeDispatch node ctx inputData with
  | .ok (out, ctx') =>
    ({ nodeId := node.id, success := true, status := "completed",
       inputData := inputData, outputData := out, executionTime := dt,
       error := none, logs := [], nextNodeIds := [] }, ctx')
  | .error msg =>
    ({ nodeId := node.id, success := false, status := "failed",
       inputData := inputData, outputData := .vnull, executionTime := dt,
       error := some msg, logs := [], nextNodeIds := [] }, ctx)

/-- `getNextNode`: filters the connections whose source is the current node
and follows the first one (both the single- and the multi-connection branch
of the source take `connections[0]`); the runtime data is not consulted. -/
def getNextNode (flow : Flow) (currentNode : FlowNode) (_data : Value) :
    Option FlowNode :=
  match flow.connections.filter (fun c => c.sourceNodeId == currentNode.id) with
  | [] => none
  | c :: _ => flow.nodes.find? (fun n => n.id == c.targetNodeId)

/-- One persisted log line (`execution_logs` row as written by
`addExecutionLog`): node id (or `"system"`), level and message. -/
structure LogEntry where
  nodeId : String
  level : String
  message : String
deriving DecidableEq

/-- The possible outcomes of the `while (currentNode)` loop of
`executeNodes`: normal return of the final data, a thrown error, or — since
the source loop has no bound — still running when the observation fuel runs
out. -/
inductive LoopOutcome where
  | finished (result : Value) (ctx : ExecutionContext) (logs : List LogEntry)
  | failed (msg : String) (ctx : ExecutionContext) (logs : List LogEntry)
  | running (ctx : ExecutionContext) (logs : List LogEntry)
deriving DecidableEq

/-- `true` when the loop has not yet returned after the given amount of
fuel. -/
def LoopOutcome.stillRunning : LoopOutcome → Bool
  | .running _ _ => true
  | _ => false

/-- The execution path accumulated in the context of an outcome. -/
def LoopOutcome.path : LoopOutcome → List String
  | .finished _ ctx _ => ctx.executionPath
  | .failed _ ctx _ => ctx.executionPath
  | .running ctx _ => ctx.executionPath

/-- The body of `executeNodes`' `while (currentNode)` loop, one recursive
call per iteration.  Each iteration: record the visit, log the entry line,
run `executeNode`, take `nodeResult.outputData` as the new data (the
`success` flag is never read), log "Node executed successfully"
unconditionally, stop after an `end` node, otherwise follow `getNextNode`
(exiting normally when it yields nothing).  The fuel argument only bounds
how long we observe the loop; the source loop itself is unbounded. -/
def execLoop (flow : Flow) : Nat → FlowNode → ExecutionContext → Value →
    List LogEntry → LoopOutcome
  | 0, _, ctx, _, logs => .running ctx logs
  | fuel + 1, node, ctx, result, logs =>
    let ctx1 := { ctx with currentNodeId := node.id,
                           executionPath := ctx.executionPath ++ [node.id] }
    let logs1 := logs ++ [⟨node.id, "info", "Executing node: " ++ node.name⟩]
    let step := executeNode node ctx1 result 0
    let result1 := step.1.outputData
    let ctx2 := step.2
    let logs2 := logs1 ++ [⟨node.id, "info", "Node executed successfully"⟩]
    if node.type = "end" then
      .finished result1 ctx2 logs2
    else
      match getNextNode flow node result1 with
      | none => .finished result1 ctx2 logs2
      | some next => execLoop flow fuel next ctx2 result1 logs2

/-- `executeNodes`: find the `start` node (throwing when absent) and run the
loop from it with `result = context.inputData`. -/
def executeNodes (flow : Flow) (ctx : ExecutionContext) (fuel : Nat) :
    LoopOutcome :=
  match flow.nodes.find? (fun n => n.type == "start") with
  | none => .failed "No start node found in flow" ctx []
  | some startNode => execLoop flow fuel startNode ctx ctx.inputData []

/-- Seeding of the run-local variable map from the flow's declared variables
(`flow.variables.forEach(v => context.variables.set(v.name, v.defaultValue))`). -/
def seedVariables (decls : List FlowVariable) : List (Value × Value) :=
  decls.foldl (fun m v => mapSet m (.vstr v.name) v.defaultValue) []

/-- The fresh `ExecutionContext` built at the top of `executeFlowAsync`
(`outputData` starts as the empty object `{}`). -/
def initContext (executionId : String) (flow : Flow) (inputData : Value) :
    ExecutionContext :=
  { executionId := executionId, flowId := flow.id,
    «variables» := seedVariables flow.«variables»,
    inputData := inputData, outputData := .vobj,
    currentNodeId := "", executionPath := [] }

/-- One row of the `executions` table as the service reads and writes it. -/
structure ExecutionRecord where
  id : String
  flowId : String
  status : String
  inputData : Value
  outputData : Option Value
  errorMessage : Option String
deriving DecidableEq

/-- `SELECT * FROM executions WHERE id = ?` (first matching row). -/
def lookupRecord : List ExecutionRecord → String → Option ExecutionRecord
  | [], _ => none
  | r :: rest, id => if r.id = id then some r else lookupRecord rest id

/-- The stored status of an execution, when the row exists. -/
def statusOf (tbl : List ExecutionRecord) (id : String) : Option String :=
  (lookupRecord tbl id).map (fun r => r.status)

/-- `updateExecutionStatus`: `UPDATE executions SET status = ? WHERE id = ?`.
The write is unconditional — no check of the current status. -/
def updateExecutionStatus (tbl : List ExecutionRecord) (id : String)
    (status : String) : List ExecutionRecord :=
  tbl.map (fun r => if r.id = id then { r with status := status } else r)

/-- The terminal write of `executeFlowAsync`: on normal return of
`executeNodes` the row becomes `completed` with the output data; on a thrown
error it becomes `failed` with the error message.  Both `UPDATE` statements
are unconditional.  A loop still running writes nothing. -/
def finishRun (tbl : List ExecutionRecord) (executionId : String) :
    LoopOutcome → List ExecutionRecord
  | .finished result _ _ =>
    tbl.map (fun r => if r.id = executionId then
      { r with status := "completed", outputData := some result } else r)
  | .failed msg _ _ =>
    tbl.map (fun r => if r.id = executionId then
      { r with status := "failed", errorMessage := some msg } else r)
  | .running _ _ => tbl

/-- Everything observable about one asynchronous run. -/
structure RunResult where
  table : List ExecutionRecord
  outcome : LoopOutcome
  logs : List LogEntry
deriving DecidableEq

/-- `executeFlowAsync`: set the row to `running`, log the start line, run the
traversal, apply the terminal write and the terminal log line. -/
def executeFlowAsync (executionId : String) (flow : Flow) (inputData : Value)
    (tbl : List ExecutionRecord) (fuel : Nat) : RunResult :=
  let ctx := initContext executionId flow inputData
  let tbl1 := updateExecutionStatus tbl executionId "running"
  let startLog : LogEntry := ⟨"system", "info", "Flow execution started"⟩
  match executeNodes flow ctx fuel with
  | .finished result ctx' logs =>
    ⟨finishRun tbl1 executionId (.finished result ctx' logs),
     .finished result ctx' logs,
     [startLog] ++ logs ++ [⟨"system", "info", "Flow execution completed"⟩]⟩
  | .failed msg ctx' logs =>
    ⟨finishRun tbl1 executionId (.failed msg ctx' logs),
     .failed msg ctx' logs,
     [startLog] ++ logs ++ [⟨"system", "error", "Flow execution failed"⟩]⟩
  | .running ctx' logs =>
    ⟨tbl1, .running ctx' logs, [startLog] ++ logs⟩

/-- An `ApiError` as thrown by the service layer (`message`, HTTP status
code, error code). -/
structure ApiErr where
  message : String
  statusCode : Nat
  code : String
deriving DecidableEq

/-- `ApiError.notFound`. -/
def apiNotFound (message : String) : ApiErr := ⟨message, 404, "NOT_FOUND"⟩

/-- `ApiError.badRequest`. -/
def apiBadRequest (message : String) : ApiErr := ⟨message, 400, "BAD_REQUEST"⟩

/-- The synchronous reply of `executeFlow`. -/
structure ExecuteFlowResponse where
  executionId : String
  status : String
deriving DecidableEq

/-- `executeFlow` (the engine's `start`): look the flow up, reject a missing
flow and a non-`published` flow, otherwise insert a `pending` row and return
immediately (the traversal is launched asynchronously and is not awaited).
No structural validation of the flow happens here. -/
def executeFlow (flowLookup : Option Flow) (newExecutionId : String)
    (inputData : Value) (tbl : List ExecutionRecord) :
    Except ApiErr (List ExecutionRecord × ExecuteFlowResponse) :=
  match flowLookup with
  | none => .error (apiNotFound "Flow not found")
  | some flow =>
    if flow.status ≠ "published" then
      .error (apiBadRequest "Only published flows can be executed")
    else
      .ok (tbl ++ [{ id := newExecutionId, flowId := flow.id,
                     status := "pending", inputData := inputData,
                     outputData := none, errorMessage := none }],
           { executionId := newExecutionId, status := "pending" })

/-- The `activeExecutions` registry keyed by execution id; `Map.delete`
removes the key. -/
def registryDelete (reg : List String) (id : String) : List String :=
  reg.filter (fun x => x ≠ id)

/-- `cancelExecution`: `NotFound` for an unknown id (from
`getExecutionById`), `badRequest` when the stored status is neither
`pending` nor `running`, otherwise an unconditional status write to
`cancelled` and removal from the registry.  No signal of any kind is
delivered to the traversal loop. -/
def cancelExecution (tbl : List ExecutionRecord) (reg : List String)
    (id : String) : Except ApiErr (List ExecutionRecord × List String) :=
  match lookupRecord tbl id with
  | none => .error (apiNotFound "Execution not found")
  | some r =>
    if r.status ≠ "pending" ∧ r.status ≠ "running" then
      .error (apiBadRequest "Execution cannot be cancelled")
    else
      .ok (updateExecutionStatus tbl id "cancelled", registryDelete reg id)

/-- Association-list lookup for the adjacency `Map` of
`hasCircularDependency`. -/
def graphGet : List (String × List String) → String → Option (List String)
  | [], _ => none
  | (k', v) :: rest, k => if k' = k then some v else graphGet rest k

/-- `Map.set` for the adjacency map: update in place or append. -/
def graphSet : List (String × List String) → String → List String →
    List (String × List String)
  | [], k, v => [(k, v)]
  | (k', v') :: rest, k, v =>
    if k' = k then (k', v) :: rest else (k', v') :: graphSet rest k v

/-- The adjacency map built by `hasCircularDependency`: one (initially empty)
entry per node, then each connection's target appended to its source's list
(`graph.get(source) || []` also creates entries for sources that are not
nodes). -/
def buildGraph (nodes : List FlowNode) (connections : List Connection) :
    List (String × List String) :=
  let base := nodes.foldl (fun g n => graphSet g n.id []) []
  connections.foldl
    (fun g c =>
      graphSet g c.sourceNodeId
        (((graphGet g c.sourceNodeId).getD []) ++ [c.targetNodeId]))
    base

mutual

/-- The recursive `dfs` of `hasCircularDependency`: a node already on the
recursion stack means a cycle; an already-visited node is skipped; otherwise
the node joins both sets and the neighbours are explored.  The threaded
`visited` list plays the mutable `visited` set; the stack reverts when the
call returns.  Fuel strictly exceeds the number of calls the source can make
on the same graph, so exhaustion is unreachable from `hasCircularDependency`. -/
def dfsVisit (g : List (String × List String)) : Nat → String →
    List String → List String → Bool × List String
  | 0, _, visited, _ => (false, visited)
  | fuel + 1, nodeId, visited, stack =>
    if nodeId ∈ stack then (true, visited)
    else if nodeId ∈ visited then (false, visited)
    else
      dfsList g fuel ((graphGet g nodeId).getD [])
        (visited ++ [nodeId]) (stack ++ [nodeId])

/-- Exploration of one neighbour list, short-circuiting on a found cycle. -/
def dfsList (g : List (String × List String)) : Nat → List String →
    List String → List String → Bool × List String
  | _, [], visited, _ => (false, visited)
  | 0, _ :: _, visited, _ => (false, visited)
  | fuel + 1, n :: rest, visited, stack =>
    match dfsVisit g fuel n visited stack with
    | (true, visited') => (true, visited')
    | (false, visited') => dfsList g fuel rest visited' stack

end

/-- The outer loop of `hasCircularDependency` over the graph's keys, skipping
already-visited ones. -/
def dfsOuter (g : List (String × List String)) : Nat → List String →
    List String → Bool
  | _, [], _ => false
  | 0, _ :: _, _ => false
  | fuel + 1, k :: rest, visited =>
    if k ∈ visited then dfsOuter g fuel rest visited
    else
      match dfsVisit g fuel k visited [] with
      | (true, _) => true
      | (false, visited') => dfsOuter g fuel rest visited'

/-- `hasCircularDependency`: DFS with a recursion stack over the adjacency
map.  The fuel is a generous upper bound on the number of `dfs` calls (each
call either consumes an unvisited node or returns immediately from a
neighbour or key, so calls are bounded by nodes plus edges plus keys). -/
def hasCircularDependency (nodes : List FlowNode)
    (connections : List Connection) : Bool :=
  let g := buildGraph nodes connections
  let fuel := 3 * (g.length + (g.map (fun p => p.2.length)).sum) + 3
  dfsOuter g fuel (g.map (fun p => p.1)) []

/-- The result shape of `validateFlowStructure`. -/
structure ValidationResult where
  isValid : Bool
  errors : List String
deriving DecidableEq

/-- The start-node errors pushed first by `validateFlowStructure`. -/
def startNodeErrors (nodes : List FlowNode) : List String :=
  let startNodes := nodes.filter (fun n => n.type == "start")
  if startNodes.length = 0 then ["Flow must have at least one start node"]
  else if startNodes.length > 1 then ["Flow can only have one start node"]
  else []

/-- The end-node error. -/
def endNodeErrors (nodes : List FlowNode) : List String :=
  if (nodes.filter (fun n => n.type == "end")).length = 0 then
    ["Flow must have at least one end node"]
  else []

/-- The duplicate-id error (`Set` size versus list length). -/
def nodeIdErrors (nodes : List FlowNode) : List String :=
  let nodeIds := nodes.map (fun n => n.id)
  if nodeIds.length ≠ nodeIds.dedup.length then ["Node IDs must be unique"]
  else []

/-- Whether some node carries the given id (`nodes.some(...)`). -/
def existsNode (nodes : List FlowNode) (id : String) : Bool :=
  nodes.any (fun n => n.id == id)

/-- The per-connection endpoint errors, in connection order, source before
target. -/
def connectionErrors (nodes : List FlowNode) :
    List Connection → List String
  | [] => []
  | c :: rest =>
    (if existsNode nodes c.sourceNodeId then []
     else ["Connection source node " ++ c.sourceNodeId ++ " does not exist"]) ++
    (if existsNode nodes c.targetNodeId then []
     else ["Connection target node " ++ c.targetNodeId ++ " does not exist"]) ++
    connectionErrors nodes rest

/-- `validateFlowStructure` from `backend/src/utils/validation.ts`: all
checks are evaluated and their errors concatenated in push order — start
node, end node, id uniqueness, connection endpoints, circular dependency —
and validity is the absence of errors. -/
def validateFlowStructure (nodes : List FlowNode)
    (connections : List Connection) : ValidationResult :=
  let errors :=
    startNodeErrors nodes ++ endNodeErrors nodes ++ nodeIdErrors nodes ++
    connectionErrors nodes connections ++
    (if hasCircularDependency nodes connections then
      ["Flow contains circular dependencies"] else [])
  { isValid := errors.isEmpty, errors := errors }

/-! Concrete fixtures used by the claim theorems. -/

/-- A `start` node. -/
def nodeS1 : FlowNode := ⟨"s", "start", "Start", {}⟩

/-- A `condition` node with no `condition` config — its executor throws. -/
def nodeC1 : FlowNode := ⟨"c", "condition", "Check", {}⟩

/-- An `end` node. -/
def nodeE1 : FlowNode := ⟨"e", "end", "End", {}⟩

/-- Published flow `start → condition(no config) → end`. -/
def flow1 : Flow := ⟨"f1", "published", [nodeS1, nodeC1, nodeE1],
  [⟨"k1", "s", "c", none⟩, ⟨"k2", "c", "e", none⟩], []⟩

/-- The `executions` table holding flow1's pending run. -/
def tbl1 : List ExecutionRecord :=
  [⟨"e1", "f1", "pending", .vstr "in", none, none⟩]

/-- The complete observable run of flow1. -/
def run1 : RunResult := executeFlowAsync "e1" flow1 (.vstr "in") tbl1 10

/-- Claim C1: if a node executor reports failure (success = false with an
error), the run transitions to `failed` with the error as `errorDetail`, an
error-level log entry is emitted and the run stops — REFUTED by the code.
`executeNodes` never reads `NodeExecutionResult.success`: on flow1 the
condition executor fails, yet the loop takes the `null` output as the new
data, logs "Node executed successfully", continues to the `end` node, and the
run is recorded `completed` with output `null`; every log line is
info-level. -/
theorem c1_node_failure_swallowed_run_completes :
    (∀ (ctx : ExecutionContext) (input : Value) (dt : Nat),
      (executeNode nodeC1 ctx input dt).1.success = false ∧
      (executeNode nodeC1 ctx input dt).1.error =
        some "Condition node missing condition configuration") ∧
    statusOf run1.table "e1" = some "completed" ∧
    (lookupRecord run1.table "e1").map (fun r => r.outputData) =
      some (some .vnull) ∧
    run1.logs.all (fun l => l.level == "info") = true ∧
    run1.outcome.path = ["s", "c", "e"] :=
  ⟨fun _ _ _ => ⟨rfl, rfl⟩, rfl, rfl, rfl, rfl⟩

/-- The looping `action` node of the cyclic flow. -/
def nodeA2 : FlowNode :=
  ⟨"a", "action", "Loop", { actionType := .vstr "http_request" }⟩

/-- Published cyclic flow `start → a`, `a → a`. -/
def flow2 : Flow := ⟨"f2", "published", [⟨"s", "start", "Start", {}⟩, nodeA2],
  [⟨"k1", "s", "a", none⟩, ⟨"k2", "a", "a", none⟩], []⟩

/-- The `executions` table holding flow2's pending run. -/
def tbl2 : List ExecutionRecord := [⟨"e2", "f2", "pending", .vobj, none, none⟩]

/-- One loop iteration at the self-looping node steps back to the same node:
the cycle of flow2 is followed forever. -/
lemma execLoop_a2_step (n : Nat) (ctx : ExecutionContext) (result : Value)
    (logs : List LogEntry) :
    execLoop flow2 (n + 1) nodeA2 ctx result logs =
      execLoop flow2 n nodeA2
        { ctx with currentNodeId := "a",
                   executionPath := ctx.executionPath ++ ["a"] }
        result
        ((logs ++ [⟨"a", "info", "Executing node: Loop"⟩]) ++
          [⟨"a", "info", "Node executed successfully"⟩]) := rfl

/-- From the self-looping node the loop never returns, whatever the fuel. -/
lemma execLoop_a2_running : ∀ (n : Nat) (ctx : ExecutionContext)
    (result : Value) (logs : List LogEntry),
    (execLoop flow2 n nodeA2 ctx result logs).stillRunning = true := by
  intro n
  induction n with
  | zero => intro ctx result logs; rfl
  | succ n ih =>
    intro ctx result logs
    rw [execLoop_a2_step]
    exact ih _ _ _

/-- Claim C2: the traversal loop terminates on every flow, failing with
`CycleDetected` before a node is revisited more than `maxRevisits` times —
REFUTED by the code, which has no cycle guard at all.  On the cyclic flow2
the loop is still running after any amount of fuel, the stored status never
leaves `running`, and after fuel 10 the node `a` already appears 9 times in
`executionPath` (far past the claimed default of one visit). -/
theorem c2_cyclic_flow_never_terminates :
    (∀ fuel : Nat,
      (executeNodes flow2 (initContext "e2" flow2 .vobj) fuel).stillRunning
        = true) ∧
    (∀ fuel : Nat,
      statusOf (executeFlowAsync "e2" flow2 .vobj tbl2 fuel).table "e2" =
        some "running") ∧
    (executeNodes flow2 (initContext "e2" flow2 .vobj) 10).path.count "a"
      = 9 := by
  have hrun : ∀ fuel : Nat,
      (executeNodes flow2 (initContext "e2" flow2 .vobj) fuel).stillRunning
        = true := by
    intro fuel
    match fuel with
    | 0 => rfl
    | fuel + 1 =>
      have step : executeNodes flow2 (initContext "e2" flow2 .vobj)
          (fuel + 1) =
          execLoop flow2 fuel nodeA2
            ⟨"e2", "f2", [], .vobj, .vobj, "s", ["s"]⟩ .vobj
            (([] ++ [⟨"s", "info", "Executing node: Start"⟩]) ++
              [⟨"s", "info", "Node executed successfully"⟩]) := rfl
      rw [step]
      exact execLoop_a2_running _ _ _ _
  refine ⟨hrun, ?_, rfl⟩
  intro fuel
  have h := hrun fuel
  cases heq : executeNodes flow2 (initContext "e2" flow2 .vobj) fuel with
  | finished r c l => rw [heq] at h; simp [LoopOutcome.stillRunning] at h
  | failed m c l => rw [heq] at h; simp [LoopOutcome.stillRunning] at h
  | running c l =>
    show statusOf (executeFlowAsync "e2" flow2 .vobj tbl2 fuel).table "e2" =
      some "running"
    simp only [executeFlowAsync]
    rw [heq]
    rfl

/-- A `condition` node whose `condition` config is present (an object), as a
configured rule set would be. -/
def nodeC3 : FlowNode := ⟨"c", "condition", "Branch", { condition := .vobj }⟩

/-- Target of the `false`-handle edge. -/
def node31 : FlowNode := ⟨"n1", "action", "IfFalse", {}⟩

/-- Target of the `true`-handle edge. -/
def node32 : FlowNode := ⟨"n2", "action", "IfTrue", {}⟩

/-- Flow whose condition node has a `false`-handle edge declared before a
`true`-handle edge. -/
def flow3 : Flow := ⟨"f3", "published", [nodeC3, node31, node32],
  [⟨"k1", "c", "n1", some "false"⟩, ⟨"k2", "c", "n2", some "true"⟩], []⟩

/-- Claim C3: a condition node evaluates its rule set and selects a branch
handle, and the traversal filters outgoing connections by that handle with a
`defaultPath` fallback — REFUTED by the code.  The condition executor
evaluates nothing (it returns every input unchanged and produces no branch
information, `nextNodeIds` is always empty), and `getNextNode` ignores
`sourceHandle` entirely: on flow3 it always follows the first declared
connection — the `false`-handle edge — whatever the data. -/
theorem c3_condition_branching_not_implemented :
    (∀ input : Value, executeConditionNode nodeC3 input = .ok input) ∧
    (∀ (ctx : ExecutionContext) (input : Value) (dt : Nat),
      (executeNode nodeC3 ctx input dt).1.outputData = input ∧
      (executeNode nodeC3 ctx input dt).1.nextNodeIds = []) ∧
    (∀ d : Value, getNextNode flow3 nodeC3 d = some node31) ∧
    flow3.connections.head?.map (fun c => c.sourceHandle) =
      some (some "false") :=
  ⟨fun _ => rfl, fun _ _ _ => ⟨rfl, rfl⟩, fun _ => rfl, rfl⟩

/-- An action node with no outgoing connection (a dead end). -/
def nodeA4 : FlowNode :=
  ⟨"a", "action", "Act", { actionType := .vstr "http_request" }⟩

/-- Published flow `start → a` where `a` is a non-`end` dead end. -/
def flow4 : Flow := ⟨"f4", "published", [⟨"s", "start", "Start", {}⟩, nodeA4],
  [⟨"k1", "s", "a", none⟩], []⟩

/-- The `executions` table holding flow4's pending run. -/
def tbl4 : List ExecutionRecord := [⟨"e4", "f4", "pending", .vobj, none, none⟩]

/-- Claim C4 counterexample: on flow4 the non-`end` node `a` has no outgoing
connection, yet the run finishes `completed` — there is no `DeadEnd`
failure. -/
theorem c4_dead_end_completes_counterexample :
    nodeA4.type ≠ "end" ∧
    flow4.connections.filter (fun c => c.sourceNodeId == nodeA4.id) = [] ∧
    statusOf (executeFlowAsync "e4" flow4 .vobj tbl4 10).table "e4" =
      some "completed" ∧
    (executeFlowAsync "e4" flow4 .vobj tbl4 10).outcome.path = ["s", "a"] :=
  ⟨by decide, rfl, rfl, rfl⟩

/-- Claim C4 (amended): when the current node is not `end` and has no
outgoing connection, the `while` loop simply exits with the current data and
the run is recorded `completed` — the code has no dead-end failure. -/
theorem c4_dead_end_run_completes
    (flow : Flow) (node : FlowNode) (ctx : ExecutionContext) (result : Value)
    (logs : List LogEntry) (n : Nat)
    (hnotend : ¬ node.type = "end")
    (hnoconn : flow.connections.filter
      (fun c => c.sourceNodeId == node.id) = []) :
    (∃ r ctx' logs',
      execLoop flow (n + 1) node ctx result logs = .finished r ctx' logs') ∧
    ∀ (tbl : List ExecutionRecord) (id : String) (row : ExecutionRecord)
      (r : Value) (c : ExecutionContext) (l : List LogEntry),
      row ∈ tbl → row.id = id →
      { row with status := "completed", outputData := some r } ∈
        finishRun tbl id (.finished r c l) := by
  constructor
  · have hnext : ∀ d, getNextNode flow node d = none := by
      intro d
      unfold getNextNode
      rw [hnoconn]
    simp only [execLoop, hnext, hnotend, if_false]
    exact ⟨_, _, _, rfl⟩
  · intro tbl id row r c l hmem hid
    subst hid
    have hf : (fun x => if x.id = row.id then
        { x with status := "completed", outputData := some r } else x) row =
        { row with status := "completed", outputData := some r } := by simp
    exact hf ▸ List.mem_map_of_mem _ hmem

/-- Witness for the amended C4 at flow4. -/
theorem c4_dead_end_run_completes_witness :
    ¬ nodeA4.type = "end" ∧
    flow4.connections.filter (fun c => c.sourceNodeId == nodeA4.id) = [] ∧
    (∃ r ctx' logs',
      execLoop flow4 1 nodeA4 (initContext "e4" flow4 .vobj) .vobj [] =
        .finished r ctx' logs') :=
  ⟨by decide, rfl,
   (c4_dead_end_run_completes flow4 nodeA4 (initContext "e4" flow4 .vobj)
      .vobj [] 0 (by decide) rfl).1⟩

/-- An execution row already in the terminal `cancelled` state. -/
def row5 : ExecutionRecord := ⟨"e5", "f5", "cancelled", .vobj, none, none⟩

/-- Claim C5 counterexample: `updateExecutionStatus` happily overwrites the
terminal `cancelled` status with `completed`; nothing is rejected. -/
theorem c5_cancelled_overwritten_counterexample :
    row5.status = "cancelled" ∧
    statusOf (updateExecutionStatus [row5] "e5" "completed") "e5" =
      some "completed" := ⟨rfl, rfl⟩

/-- Claim C5 (amended): the status write is unconditional — there is no
terminal-state guard anywhere, so a record whose status is terminal
(completed/failed/cancelled) still gets the new status applied. -/
theorem c5_status_update_unconditional
    (tbl : List ExecutionRecord) (id st : String) (row : ExecutionRecord)
    (hmem : row ∈ tbl) (hid : row.id = id)
    (_hterm : row.status = "completed" ∨ row.status = "failed" ∨
      row.status = "cancelled") :
    { row with status := st } ∈ updateExecutionStatus tbl id st := by
  subst hid
  have hf : (fun x => if x.id = row.id then { x with status := st } else x)
      row = { row with status := st } := by simp
  exact hf ▸ List.mem_map_of_mem _ hmem

/-- Witness for the amended C5 at row5. -/
theorem c5_status_update_unconditional_witness :
    { row5 with status := "completed" } ∈
      updateExecutionStatus [row5] "e5" "completed" :=
  c5_status_update_unconditional [row5] "e5" "completed" row5 (by simp) rfl
    (Or.inr (Or.inr rfl))

/-- `lookupRecord` through the per-row conditional rewrite used by the
status-writing `UPDATE` statements: the first match is rewritten, everything
else is untouched, provided the rewrite keeps the id. -/
lemma lookupRecord_map_update (tbl : List ExecutionRecord) (id : String)
    (f : ExecutionRecord → ExecutionRecord) (hf : ∀ r, (f r).id = r.id) :
    lookupRecord (tbl.map (fun r => if r.id = id then f r else r)) id =
      (lookupRecord tbl id).map f := by
  induction tbl with
  | nil => rfl
  | cons r rest ih =>
    by_cases h : r.id = id
    · simp [lookupRecord, h, hf r]
    · simp [lookupRecord, h, ih]

/-- The status stored after `updateExecutionStatus`, in terms of the lookup
on the old table. -/
lemma statusOf_update (tbl : List ExecutionRecord) (id st : String) :
    statusOf (updateExecutionStatus tbl id st) id =
      (lookupRecord tbl id).map (fun _ => st) := by
  unfold statusOf updateExecutionStatus
  rw [lookupRecord_map_update tbl id (fun r => { r with status := st })
    (fun _ => rfl)]
  cases lookupRecord tbl id <;> rfl

/-- The status stored after the completion write of `executeFlowAsync`. -/
lemma statusOf_finishRun_finished (tbl : List ExecutionRecord) (id : String)
    (r : Value) (c : ExecutionContext) (l : List LogEntry) :
    statusOf (finishRun tbl id (.finished r c l)) id =
      (lookupRecord tbl id).map (fun _ => "completed") := by
  unfold statusOf finishRun
  rw [lookupRecord_map_update tbl id
    (fun row => { row with status := "completed", outputData := some r })
    (fun _ => rfl)]
  cases lookupRecord tbl id <;> rfl

/-- A running execution row for the cancellation scenario. -/
def tbl6 : List ExecutionRecord :=
  [⟨"e6", "f6", "running", .vstr "x", none, none⟩]

/-- The action node of the linear flow6. -/
def nodeA6 : FlowNode :=
  ⟨"a", "action", "Act", { actionType := .vstr "http_request" }⟩

/-- Published linear flow `start → a → end`. -/
def flow6 : Flow := ⟨"f6", "published",
  [⟨"s", "start", "Start", {}⟩, nodeA6, ⟨"e", "end", "End", {}⟩],
  [⟨"k1", "s", "a", none⟩, ⟨"k2", "a", "e", none⟩], []⟩

/-- The loop state of flow6's run after its first iteration (the `start`
node has executed, `a` is next). -/
def ctx6 : ExecutionContext :=
  { initContext "e6" flow6 (.vstr "x") with
    currentNodeId := "s", executionPath := ["s"] }

/-- Claim C6 counterexample: cancelling the running execution succeeds and
stores `cancelled`, but the traversal loop — which consults no cancellation
signal — still executes nodes `a` and `end` when resumed, and the terminal
write then overwrites `cancelled` with `completed`.  The run does not stop
before invoking the next node's executor. -/
theorem c6_cancellation_not_observed_counterexample :
    cancelExecution tbl6 ["e6"] "e6" =
      .ok ([⟨"e6", "f6", "cancelled", .vstr "x", none, none⟩], []) ∧
    (execLoop flow6 5 nodeA6 ctx6 (.vstr "x") []).path = ["s", "a", "e"] ∧
    statusOf
      (finishRun [⟨"e6", "f6", "cancelled", .vstr "x", none, none⟩] "e6"
        (execLoop flow6 5 nodeA6 ctx6 (.vstr "x") [])) "e6" =
      some "completed" :=
  ⟨rfl, rfl, rfl⟩

/-- Claim C6 (amended): `cancelExecution` fails `NotFound` for an unknown id
and `badRequest` ("Execution cannot be cancelled") for a terminal one, and
for a pending/running one it stores `cancelled` and deregisters the id; but
no cancellation signal reaches the traversal loop, so a run that later
finishes normally overwrites the `cancelled` status with `completed`. -/
theorem c6_cancel_semantics
    (tbl : List ExecutionRecord) (reg : List String) (id : String) :
    (lookupRecord tbl id = none →
      cancelExecution tbl reg id =
        .error (apiNotFound "Execution not found")) ∧
    (∀ row, lookupRecord tbl id = some row →
      ¬ row.status = "pending" → ¬ row.status = "running" →
      cancelExecution tbl reg id =
        .error (apiBadRequest "Execution cannot be cancelled")) ∧
    (∀ row, lookupRecord tbl id = some row →
      (row.status = "pending" ∨ row.status = "running") →
      ∃ tbl' reg', cancelExecution tbl reg id = .ok (tbl', reg') ∧
        statusOf tbl' id = some "cancelled" ∧ id ∉ reg') ∧
    (∀ tbl' reg' (r : Value) (c : ExecutionContext) (l : List LogEntry),
      cancelExecution tbl reg id = .ok (tbl', reg') →
      statusOf (finishRun tbl' id (.finished r c l)) id =
        some "completed") := by
  refine ⟨?_, ?_, ?_, ?_⟩
  · intro h
    unfold cancelExecution
    rw [h]
  · intro row hlook hp hr
    unfold cancelExecution
    rw [hlook]
    exact if_pos ⟨hp, hr⟩
  · intro row hlook hst
    have hcond : ¬ (¬ row.status = "pending" ∧ ¬ row.status = "running") := by
      rcases hst with h | h
      · exact fun hc => hc.1 h
      · exact fun hc => hc.2 h
    refine ⟨updateExecutionStatus tbl id "cancelled", registryDelete reg id,
      ?_, ?_, ?_⟩
    · unfold cancelExecution
      rw [hlook]
      exact if_neg hcond
    · rw [statusOf_update, hlook]
      rfl
    · simp [registryDelete]
  · intro tbl' reg' r c l hok
    unfold cancelExecution at hok
    cases hlook : lookupRecord tbl id with
    | none =>
      rw [hlook] at hok
      have hok' : (Except.error (apiNotFound "Execution not found") :
          Except ApiErr (List ExecutionRecord × List String))
          = Except.ok (tbl', reg') := hok
      exact absurd hok' (by simp)
    | some row =>
      rw [hlook] at hok
      have hok' : (if row.status ≠ "pending" ∧ row.status ≠ "running" then
          Except.error (apiBadRequest "Execution cannot be cancelled")
        else Except.ok (updateExecutionStatus tbl id "cancelled",
          registryDelete reg id)) = Except.ok (tbl', reg') := hok
      by_cases hcond : row.status ≠ "pending" ∧ row.status ≠ "running"
      · rw [if_pos hcond] at hok'
        exact absurd hok' (by simp)
      · rw [if_neg hcond] at hok'
        have htbl : updateExecutionStatus tbl id "cancelled" = tbl' := by
          simp only [Except.ok.injEq, Prod.mk.injEq] at hok'
          exact hok'.1
        rw [← htbl, statusOf_finishRun_finished]
        rw [show updateExecutionStatus tbl id "cancelled" =
          tbl.map (fun x => if x.id = id then { x with status := "cancelled" }
            else x) from rfl]
        rw [lookupRecord_map_update tbl id
          (fun x => { x with status := "cancelled" }) (fun _ => rfl), hlook]
        rfl

/-- Witness for the amended C6: cancelling an unknown id fails, and
cancelling flow6's running execution stores `cancelled` and deregisters. -/
theorem c6_cancel_semantics_witness :
    cancelExecution [] [] "ghost" =
      .error (apiNotFound "Execution not found") ∧
    (∃ tbl' reg', cancelExecution tbl6 ["e6"] "e6" = .ok (tbl', reg') ∧
      statusOf tbl' "e6" = some "cancelled" ∧ "e6" ∉ reg') :=
  ⟨(c6_cancel_semantics [] [] "ghost").1 rfl,
   (c6_cancel_semantics tbl6 ["e6"] "e6").2.2.1
     ⟨"e6", "f6", "running", .vstr "x", none, none⟩ rfl (Or.inr rfl)⟩

/-- A published flow that fails structural validation (it has no start
node). -/
def badFlow7 : Flow := ⟨"f7", "published", [⟨"e", "end", "End", {}⟩], [], []⟩

/-- Claim C7 counterexample: badFlow7 fails Graph Model validation, yet
`executeFlow` does not fail with a validation error — it registers a
`pending` execution and returns immediately. -/
theorem c7_no_validation_at_start_counterexample :
    (validateFlowStructure badFlow7.nodes badFlow7.connections).isValid
      = false ∧
    executeFlow (some badFlow7) "e7" .vobj [] =
      .ok ([⟨"e7", "f7", "pending", .vobj, none, none⟩], ⟨"e7", "pending"⟩) :=
  ⟨rfl, rfl⟩

/-- Claim C7 (amended): `executeFlow` performs no structural validation at
all.  It fails `NotFound` when the flow does not exist and `badRequest`
("Only published flows can be executed") when the flow is not published;
for every published flow — structurally valid or not — it appends a
`pending` execution row and returns a `pending` response immediately. -/
theorem c7_execute_flow_no_validation
    (flowLookup : Option Flow) (id : String) (input : Value)
    (tbl : List ExecutionRecord) :
    (flowLookup = none →
      executeFlow flowLookup id input tbl =
        .error (apiNotFound "Flow not found")) ∧
    (∀ flow, flowLookup = some flow → ¬ flow.status = "published" →
      executeFlow flowLookup id input tbl =
        .error (apiBadRequest "Only published flows can be executed")) ∧
    (∀ flow, flowLookup = some flow → flow.status = "published" →
      executeFlow flowLookup id input tbl =
        .ok (tbl ++ [⟨id, flow.id, "pending", input, none, none⟩],
             ⟨id, "pending"⟩)) := by
  refine ⟨?_, ?_, ?_⟩
  · intro h
    unfold executeFlow
    rw [h]
  · intro flow hflow hstatus
    unfold executeFlow
    rw [hflow]
    exact if_pos hstatus
  · intro flow hflow hstatus
    unfold executeFlow
    rw [hflow]
    exact if_neg (by exact fun hne => hne hstatus)

/-- Witness for the amended C7: the invalid but published badFlow7 starts as
`pending` without any validation failure. -/
theorem c7_execute_flow_no_validation_witness :
    (validateFlowStructure badFlow7.nodes badFlow7.connections).isValid
      = false ∧
    executeFlow (some badFlow7) "e7w" .vobj [] =
      .ok ([] ++ [⟨"e7w", "f7", "pending", .vobj, none, none⟩],
           ⟨"e7w", "pending"⟩) :=
  ⟨rfl, (c7_execute_flow_no_validation (some badFlow7) "e7w" .vobj []).2.2
    badFlow7 rfl rfl⟩

/-- A variable node configured with the `increment` operation (declared a
valid operation by `shared/src/types/nodes.ts`). -/
def incNode : FlowNode := ⟨"v", "variable", "Inc",
  { operation := .vstr "increment", variableName := .vstr "count" }⟩

/-- A variable node configured with the `decrement` operation. -/
def decNode : FlowNode := ⟨"v", "variable", "Dec",
  { operation := .vstr "decrement", variableName := .vstr "count" }⟩

/-- A variable node configured with the `append` operation. -/
def appendNode : FlowNode := ⟨"v", "variable", "App",
  { operation := .vstr "append", variableName := .vstr "count" }⟩

/-- A variable node that sets `count := 5`. -/
def setNode : FlowNode := ⟨"v", "variable", "Set",
  { operation := .vstr "set", variableName := .vstr "count",
    value := .vint 5 }⟩

/-- A variable node that reads `count`. -/
def getNode : FlowNode := ⟨"v", "variable", "Get",
  { operation := .vstr "get", variableName := .vstr "count" }⟩

/-- Claim C8: the variable executor performs set/get/increment/decrement/
append — REFUTED for the last three: they hit the `default` branch and the
node fails ("Unsupported variable operation: ...").  Only `set` (stores the
configured value, passes the data through) and `get` (returns the stored
value) are implemented. -/
theorem c8_variable_ops_limited :
    executeVariableNode incNode (.vstr "d") [] =
      .error "Unsupported variable operation: increment" ∧
    executeVariableNode decNode (.vstr "d") [] =
      .error "Unsupported variable operation: decrement" ∧
    executeVariableNode appendNode (.vstr "d") [] =
      .error "Unsupported variable operation: append" ∧
    (∀ (ctx : ExecutionContext) (input : Value) (dt : Nat),
      (executeNode incNode ctx input dt).1.success = false ∧
      (executeNode incNode ctx input dt).1.error =
        some "Unsupported variable operation: increment") ∧
    (∀ (input : Value) (vars : List (Value × Value)),
      executeVariableNode setNode input vars =
        .ok (input, mapSet vars (.vstr "count") (.vint 5))) ∧
    (∀ input : Value,
      executeVariableNode getNode input [(.vstr "count", .vint 5)] =
        .ok (.vint 5, [(.vstr "count", .vint 5)])) :=
  ⟨rfl, rfl, rfl, fun _ _ _ => ⟨rfl, rfl⟩, fun _ _ => rfl, fun _ => rfl⟩

/-- Claim C10: `executeNode` is total at its boundary.  For every node,
context, input and measured duration it returns a `NodeExecutionResult`
carrying the node id, the input and the measured time, and is either a
success with no error or a failure with `outputData = null` and an error
message — it never throws.  The enumerated edge cases (unrecognised node
type, condition node without condition config, variable node with an
unsupported operation) all surface as failure results. -/
theorem c10_execute_node_never_throws :
    (∀ (node : FlowNode) (ctx : ExecutionContext) (input : Value) (dt : Nat),
      ((executeNode node ctx input dt).1.nodeId = node.id ∧
       (executeNode node ctx input dt).1.inputData = input ∧
       (executeNode node ctx input dt).1.executionTime = dt) ∧
      (((executeNode node ctx input dt).1.success = true ∧
        (executeNode node ctx input dt).1.error = none) ∨
       ((executeNode node ctx input dt).1.success = false ∧
        (executeNode node ctx input dt).1.outputData = .vnull ∧
        ∃ msg, (executeNode node ctx input dt).1.error = some msg))) ∧
    (∀ (ctx : ExecutionContext) (input : Value) (dt : Nat),
      (executeNode ⟨"u", "mystery", "U", {}⟩ ctx input dt).1 =
        ⟨"u", false, "failed", input, .vnull, dt,
         some "Unsupported node type: mystery", [], []⟩) ∧
    (∀ (ctx : ExecutionContext) (input : Value) (dt : Nat),
      (executeNode ⟨"c", "condition", "C", {}⟩ ctx input dt).1 =
        ⟨"c", false, "failed", input, .vnull, dt,
         some "Condition node missing condition configuration", [], []⟩) ∧
    (∀ (ctx : ExecutionContext) (input : Value) (dt : Nat),
      (executeNode ⟨"v", "variable", "V",
          { operation := .vstr "push" }⟩ ctx input dt).1 =
        ⟨"v", false, "failed", input, .vnull, dt,
         some "Unsupported variable operation: push", [], []⟩) := by
  refine ⟨fun node ctx input dt => ?_,
    fun _ _ _ => rfl, fun _ _ _ => rfl, fun _ _ _ => rfl⟩
  cases h : executeNodeDispatch node ctx input with
  | ok p =>
    obtain ⟨out, ctx'⟩ := p
    refine ⟨⟨?_, ?_, ?_⟩, Or.inl ⟨?_, ?_⟩⟩ <;> simp [executeNode, h]
  | error msg =>
    refine ⟨⟨?_, ?_, ?_⟩, Or.inr ⟨?_, ?_, msg, ?_⟩⟩ <;> simp [executeNode, h]

/-- Nodes of a structurally well-formed but cyclic flow. -/
def nodes9 : List FlowNode :=
  [⟨"s", "start", "Start", {}⟩, ⟨"a", "action", "A", {}⟩,
   ⟨"e", "end", "End", {}⟩]

/-- Connections of the cyclic flow (`a → a` is a cycle). -/
def conns9 : List Connection :=
  [⟨"k1", "s", "a", none⟩, ⟨"k2", "a", "a", none⟩, ⟨"k3", "a", "e", none⟩]

/-- Claim C9 counterexample: nodes9/conns9 satisfy every invariant the claim
lists (exactly one start node, an end node, unique ids, existing connection
endpoints — each of those checks produces no error), yet
`validateFlowStructure` still reports a violation, because the code
additionally rejects cyclic graphs. -/
theorem c9_cycle_check_counterexample :
    startNodeErrors nodes9 = [] ∧ endNodeErrors nodes9 = [] ∧
    nodeIdErrors nodes9 = [] ∧ connectionErrors nodes9 conns9 = [] ∧
    (validateFlowStructure nodes9 conns9).errors =
      ["Flow contains circular dependencies"] ∧
    (validateFlowStructure nodes9 conns9).isValid = false :=
  ⟨rfl, rfl, rfl, rfl, rfl, rfl⟩

/-- Every connection with a missing source contributes its error line. -/
lemma connectionErrors_source_mem (nodes : List FlowNode) :
    ∀ (conns : List Connection) (c : Connection), c ∈ conns →
    existsNode nodes c.sourceNodeId = false →
    ("Connection source node " ++ c.sourceNodeId ++ " does not exist") ∈
      connectionErrors nodes conns := by
  intro conns
  induction conns with
  | nil => intro c hc; cases hc
  | cons d rest ih =>
    intro c hc hex
    rcases List.mem_cons.mp hc with h | h
    · subst h
      simp [connectionErrors, hex]
    · simp [connectionErrors, ih c h hex]

/-- Every connection with a missing target contributes its error line. -/
lemma connectionErrors_target_mem (nodes : List FlowNode) :
    ∀ (conns : List Connection) (c : Connection), c ∈ conns →
    existsNode nodes c.targetNodeId = false →
    ("Connection target node " ++ c.targetNodeId ++ " does not exist") ∈
      connectionErrors nodes conns := by
  intro conns
  induction conns with
  | nil => intro c hc; cases hc
  | cons d rest ih =>
    intro c hc hex
    rcases List.mem_cons.mp hc with h | h
    · subst h
      simp [connectionErrors, hex]
    · simp [connectionErrors, ih c h hex]

/-- With every endpoint present no connection error is produced. -/
lemma connectionErrors_eq_nil (nodes : List FlowNode) :
    ∀ conns : List Connection,
    (∀ c ∈ conns, existsNode nodes c.sourceNodeId = true ∧
      existsNode nodes c.targetNodeId = true) →
    connectionErrors nodes conns = [] := by
  intro conns
  induction conns with
  | nil => intro _; rfl
  | cons d rest ih =>
    intro h
    have hd := h d (List.mem_cons_self d rest)
    simp [connectionErrors, hd.1, hd.2,
      ih (fun c hc => h c (List.mem_cons_of_mem d hc))]

/-- Claim C9 (amended): `validateFlowStructure` evaluates every check and
returns the full list of violations, not just the first — each violated
invariant contributes its message independently of the others — but besides
the invariants the claim lists it also rejects cyclic graphs; a flow
satisfying the listed invariants is violation-free only when it is also
acyclic. -/
theorem c9_validate_reports_all_violations
    (nodes : List FlowNode) (connections : List Connection) :
    ((nodes.filter (fun n => n.type == "start")).length = 0 →
      "Flow must have at least one start node" ∈
        (validateFlowStructure nodes connections).errors) ∧
    ((nodes.filter (fun n => n.type == "start")).length > 1 →
      "Flow can only have one start node" ∈
        (validateFlowStructure nodes connections).errors) ∧
    ((nodes.filter (fun n => n.type == "end")).length = 0 →
      "Flow must have at least one end node" ∈
        (validateFlowStructure nodes connections).errors) ∧
    ((nodes.map (fun n => n.id)).length ≠
        (nodes.map (fun n => n.id)).dedup.length →
      "Node IDs must be unique" ∈
        (validateFlowStructure nodes connections).errors) ∧
    (∀ c ∈ connections, existsNode nodes c.sourceNodeId = false →
      ("Connection source node " ++ c.sourceNodeId ++ " does not exist") ∈
        (validateFlowStructure nodes connections).errors) ∧
    (∀ c ∈ connections, existsNode nodes c.targetNodeId = false →
      ("Connection target node " ++ c.targetNodeId ++ " does not exist") ∈
        (validateFlowStructure nodes connections).errors) ∧
    (hasCircularDependency nodes connections = true →
      "Flow contains circular dependencies" ∈
        (validateFlowStructure nodes connections).errors) ∧
    ((validateFlowStructure nodes connections).isValid = true ↔
      (validateFlowStructure nodes connections).errors = []) ∧
    ((nodes.filter (fun n => n.type == "start")).length = 1 →
      (nodes.filter (fun n => n.type == "end")).length ≠ 0 →
      (nodes.map (fun n => n.id)).length =
        (nodes.map (fun n => n.id)).dedup.length →
      (∀ c ∈ connections, existsNode nodes c.sourceNodeId = true ∧
        existsNode nodes c.targetNodeId = true) →
      hasCircularDependency nodes connections = false →
      (validateFlowStructure nodes connections).errors = []) := by
  refine ⟨?_, ?_, ?_, ?_, ?_, ?_, ?_, ?_, ?_⟩
  · intro h
    simp [validateFlowStructure, startNodeErrors, h]
  · intro h
    have h0 : ¬ (nodes.filter (fun n => n.type == "start")).length = 0 := by
      omega
    simp [validateFlowStructure, startNodeErrors, h0, h]
  · intro h
    simp [validateFlowStructure, endNodeErrors, h]
  · intro h
    have h' : ¬ nodes.length = (nodes.map (fun n => n.id)).dedup.length := by
      simpa using h
    simp [validateFlowStructure, nodeIdErrors, h']
  · intro c hc hex
    simp only [validateFlowStructure, List.mem_append]
    exact Or.inl (Or.inr (connectionErrors_source_mem nodes connections c
      hc hex))
  · intro c hc hex
    simp only [validateFlowStructure, List.mem_append]
    exact Or.inl (Or.inr (connectionErrors_target_mem nodes connections c
      hc hex))
  · intro h
    simp [validateFlowStructure, h]
  · simp only [validateFlowStructure]
    exact List.isEmpty_iff
  · intro h1 h2 h3 hconn hcyc
    have hs : startNodeErrors nodes = [] := by
      have h0 : ¬ (nodes.filter (fun n => n.type == "start")).length = 0 := by
        omega
      have hgt : ¬ (nodes.filter (fun n => n.type == "start")).length > 1 := by
        omega
      simp [startNodeErrors, h0, hgt]
    have he : endNodeErrors nodes = [] := by
      simp [endNodeErrors, h2]
    have hi : nodeIdErrors nodes = [] := by
      simp [nodeIdErrors, h3]
    have hc : connectionErrors nodes connections = [] :=
      connectionErrors_eq_nil nodes connections hconn
    simp [validateFlowStructure, hs, he, hi, hc, hcyc]

/-- Witness for the amended C9: a flow with no nodes and one dangling
connection accumulates all four applicable violations at once, and nodes9
without the cyclic edges validates cleanly. -/
theorem c9_validate_reports_all_violations_witness :
    ("Flow must have at least one start node" ∈
      (validateFlowStructure []
        [⟨"k", "x", "y", none⟩]).errors) ∧
    ("Flow must have at least one end node" ∈
      (validateFlowStructure []
        [⟨"k", "x", "y", none⟩]).errors) ∧
    (("Connection source node x does not exist") ∈
      (validateFlowStructure []
        [⟨"k", "x", "y", none⟩]).errors) ∧
    (("Connection target node y does not exist") ∈
      (validateFlowStructure []
        [⟨"k", "x", "y", none⟩]).errors) ∧
    (validateFlowStructure nodes9
      [⟨"k1", "s", "a", none⟩, ⟨"k3", "a", "e", none⟩]).errors = [] := by
  refine ⟨?_, ?_, ?_, ?_, ?_⟩
  · exact (c9_validate_reports_all_violations []
      [⟨"k", "x", "y", none⟩]).1 rfl
  · exact (c9_validate_reports_all_violations []
      [⟨"k", "x", "y", none⟩]).2.2.1 rfl
  · exact (c9_validate_reports_all_violations []
      [⟨"k", "x", "y", none⟩]).2.2.2.2.1 ⟨"k", "x", "y", none⟩
      (by simp) rfl
  · exact (c9_validate_reports_all_violations []
      [⟨"k", "x", "y", none⟩]).2.2.2.2.2.1 ⟨"k", "x", "y", none⟩
      (by simp) rfl
  · exact (c9_validate_reports_all_violations nodes9
      [⟨"k1", "s", "a", none⟩, ⟨"k3", "a", "e", none⟩]).2.2.2.2.2.2.2.2
      rfl (by decide) rfl (by decide) rfl

end Sins6
